import Mathlib

/-!
Verification development for the EHR cohort-summarization app.

The repository has two variants of the same React component:
`src/src/App.tsx` (current: explicit generate button, editable prompt
templates) and `src/unnamed/part_000` (legacy: summarization invoked
inside the selection effect).  Both are embedded below.

Conventions of the shallow embedding:
* JS strings are `String`, JS string arrays are `List`.
* `parseInt` is modelled by `jsParseInt : String → Option Int`; `none`
  stands for `NaN`.
* Template-literal interpolation of an integer (`"s"` with a number
  spliced in) is modelled by `intStr` / `natStr`, decimal printing.
* The JS object used as a counter map preserves first-insertion key
  order (the keys are never array indices), modelled by an association
  list updated by `bumpKey`.
* `Array.prototype.sort` is stable; with the comparator of the source a
  `NaN` comparison result is treated as `+0` by the ECMAScript SortCompare
  step, which makes the comparator inconsistent whenever a `NaN-NaN` key is
  present, and the resulting order implementation-defined.  The embedding
  uses a stable insertion sort with `NaN` keys ordered below numeric keys;
  for consistent comparator inputs (all keys numeric) this agrees with
  every stable sort, which is the case all order-sensitive theorems below
  restrict to.
* The two network calls of the orchestrator are made observable: each
  embedded handler returns, next to the new state, the list of
  `PromptPair`s sent to the summarizer, and the summarizer itself is an
  oracle `PromptPair → Option String` (`none` = the call throws).
-/

/-- Decimal digit test, `'0'` to `'9'`. -/
def isDecDigit (c : Char) : Bool := 48 ≤ c.toNat && c.toNat ≤ 57

/-- Hexadecimal digit test. -/
def isHexDigit (c : Char) : Bool :=
  (48 ≤ c.toNat && c.toNat ≤ 57) || (97 ≤ c.toNat && c.toNat ≤ 102) ||
    (65 ≤ c.toNat && c.toNat ≤ 70)

/-- Numeric value of a digit character (0 for non-digits). -/
def digitVal (c : Char) : Nat :=
  if 48 ≤ c.toNat ∧ c.toNat ≤ 57 then c.toNat - 48
  else if 97 ≤ c.toNat ∧ c.toNat ≤ 102 then c.toNat - 87
  else if 65 ≤ c.toNat ∧ c.toNat ≤ 70 then c.toNat - 55
  else 0

/-- ECMAScript WhiteSpace or LineTerminator, the characters `parseInt`
skips before reading the number. -/
def isJsSpace (c : Char) : Bool :=
  c.toNat == 9 || c.toNat == 10 || c.toNat == 11 || c.toNat == 12 ||
    c.toNat == 13 || c.toNat == 32 || c.toNat == 160 || c.toNat == 5760 ||
    (8192 ≤ c.toNat && c.toNat ≤ 8202) || c.toNat == 8232 ||
    c.toNat == 8233 || c.toNat == 8239 || c.toNat == 8287 ||
    c.toNat == 12288 || c.toNat == 65279

/-- Value of a digit string, most significant digit first. -/
def digitsToNat (base : Nat) (ds : List Char) : Nat :=
  ds.foldl (fun a c => a * base + digitVal c) 0

/-- Longest decimal-digit prefix, `none` when there is no digit
(`parseInt` returns `NaN` then). -/
def decParse (cs : List Char) : Option Nat :=
  let ds := cs.takeWhile isDecDigit
  if ds.isEmpty then none else some (digitsToNat 10 ds)

/-- Longest hexadecimal-digit prefix. -/
def hexParse (cs : List Char) : Option Nat :=
  let ds := cs.takeWhile isHexDigit
  if ds.isEmpty then none else some (digitsToNat 16 ds)

/-- Magnitude part of `parseInt` after sign handling: a `0x`/`0X` prefix
selects radix 16, otherwise radix 10. -/
def jsParseNonneg (cs : List Char) : Option Nat :=
  match cs with
  | c0 :: c1 :: rest =>
    if c0 == '0' && (c1 == 'x' || c1 == 'X') then hexParse rest
    else decParse cs
  | _ => decParse cs

/-- Model of JS `parseInt(s)` (no radix argument): skip whitespace, read
an optional sign, then the longest digit prefix; `none` models `NaN`. -/
def jsParseIntChars (cs : List Char) : Option Int :=
  match cs.dropWhile isJsSpace with
  | [] => none
  | c :: rest =>
    if c == '-' then (jsParseNonneg rest).map (fun n => -(Int.ofNat n))
    else if c == '+' then (jsParseNonneg rest).map (fun n => Int.ofNat n)
    else (jsParseNonneg (c :: rest)).map (fun n => Int.ofNat n)

/-- `parseInt` on a `String`. -/
def jsParseInt (s : String) : Option Int := jsParseIntChars s.data

/-- The decimal digit character for a value below ten. -/
def decDigitChar : Nat → Char
  | 0 => '0' | 1 => '1' | 2 => '2' | 3 => '3' | 4 => '4'
  | 5 => '5' | 6 => '6' | 7 => '7' | 8 => '8' | _ => '9'

/-- Fuel-indexed decimal printer (structural recursion so that the
kernel can evaluate it on closed inputs). -/
def natDigitsAux : Nat → Nat → List Char
  | 0, _ => []
  | fuel + 1, n =>
    if n < 10 then [decDigitChar n]
    else natDigitsAux fuel (n / 10) ++ [decDigitChar (n % 10)]

/-- Decimal digits of a natural number, most significant first. -/
def natDigits (n : Nat) : List Char := natDigitsAux (n + 1) n

/-- Decimal digits of an integer, with a leading minus sign when
negative: the JS `String()` conversion of an integral number. -/
def intDigits (q : Int) : List Char :=
  if q < 0 then '-' :: natDigits (-q).toNat else natDigits q.toNat

/-- `String()` of an integral JS number. -/
def intStr (q : Int) : String := String.mk (intDigits q)

/-- `String()` of a nonnegative integral JS number. -/
def natStr (n : Nat) : String := String.mk (natDigits n)

/-- A row of the parsed CSV: fields `ID, Age, Heart_Disease_Type,
Diagnoses_Note`, all strings (`src/src/App.tsx` lines 15-20). -/
structure Patient where
  ID : String
  Age : String
  Heart_Disease_Type : String
  Diagnoses_Note : String
deriving DecidableEq, Repr

/-- One bar of the age histogram (`src/src/App.tsx` lines 22-25). -/
structure AgeGroup where
  range : String
  count : Nat
deriving DecidableEq, Repr

/-- The object key computed for one record by the binning loop
(`src/src/App.tsx` lines 76-81): `parseInt` the age, `floor(age/5)*5`,
then interpolate.  An unparseable age gives `NaN`, `Math.floor(NaN/5)*5`
is `NaN`, and the interpolated key is the string `NaN-NaN`. -/
def binKey (p : Patient) : String :=
  match jsParseInt p.Age with
  | some a =>
    let g := 5 * (a.fdiv 5)
    String.mk (intDigits g ++ '-' :: intDigits (g + 4))
  | none => "NaN-NaN"

/-- `ageGroups[groupKey] = (ageGroups[groupKey] || 0) + 1` on a JS
object: increment an existing key in place, append a fresh key at the
end (JS objects preserve first-insertion order for non-index keys). -/
def bumpKey : List (String × Nat) → String → List (String × Nat)
  | [], k => [(k, 1)]
  | (k', c) :: rest, k =>
    if k' == k then (k', c + 1) :: rest else (k', c) :: bumpKey rest k

/-- The `ageGroups` object after the `forEach` over the cohort. -/
def ageGroupsOf (ds : List Patient) : List (String × Nat) :=
  ds.foldl (fun m p => bumpKey m (binKey p)) []

/-- The comparator `(a, b) => parseInt(a.range) - parseInt(b.range)` of
`src/src/App.tsx` line 84, as a Boolean order.  `parseInt` of a numeric
key `"q-r"` stops at the dash and yields the bin start; `parseInt` of
`"NaN-NaN"` is `NaN`, which SortCompare treats as equal to everything,
leaving the order implementation-defined; the model places such keys
first. -/
def optLe : Option Int → Option Int → Bool
  | some x, some y => x ≤ y
  | none, _ => true
  | some _, none => false

lemma optLe_total (o1 o2 : Option Int) : optLe o1 o2 = true ∨ optLe o2 o1 = true := by
  cases o1 <;> cases o2 <;> simp [optLe] <;> omega

lemma optLe_trans (o1 o2 o3 : Option Int) (h12 : optLe o1 o2 = true)
    (h23 : optLe o2 o3 = true) : optLe o1 o3 = true := by
  cases o1 <;> cases o2 <;> cases o3 <;> simp_all [optLe] <;> omega

def distLe (a b : AgeGroup) : Bool := optLe (jsParseInt a.range) (jsParseInt b.range)

/-- `distLe` as a decidable relation for `List.insertionSort`. -/
def distRel (a b : AgeGroup) : Prop := distLe a b = true

instance : DecidableRel distRel := fun a b => instDecidableEqBool (distLe a b) true

instance : IsTotal AgeGroup distRel where
  total a b := optLe_total _ _

instance : IsTrans AgeGroup distRel where
  trans _ _ _ hab hbc := optLe_trans _ _ _ hab hbc

/-- `Object.entries(ageGroups).map(([range, count]) => ({range, count}))
.sort(...)` — the displayed age distribution. -/
def distributionOf (ds : List Patient) : List AgeGroup :=
  List.insertionSort distRel ((ageGroupsOf ds).map (fun e => ⟨e.1, e.2⟩))

/-- `patients.find((p) => p.ID === selectedPatient)`. -/
def findPatient (patients : List Patient) (sel : String) : Option Patient :=
  patients.find? (fun p => p.ID == sel)

/-- The similar-patients filter of `src/src/App.tsx` lines 66-70. -/
def similarOf (patients : List Patient) (sel : String) (focal : Patient) : List Patient :=
  patients.filter (fun p => p.ID != sel && p.Heart_Disease_Type == focal.Heart_Disease_Type)

/-- The `diseasePatients` filter of `src/src/App.tsx` lines 72-74. -/
def diseaseOf (patients : List Patient) (focal : Patient) : List Patient :=
  patients.filter (fun p => p.Heart_Disease_Type == focal.Heart_Disease_Type)

/-- Total count recorded in a histogram. -/
def sumCounts (dist : List AgeGroup) : Nat := (dist.map (fun g => g.count)).sum

/-- Count recorded under one range label (the label occurs at most once
in a derived histogram, but the sum form needs no such premise). -/
def countFor (r : String) (dist : List AgeGroup) : Nat :=
  ((dist.filter (fun g => g.range == r)).map (fun g => g.count)).sum

/-- `countFor` on the underlying association list. -/
def countKey (r : String) (m : List (String × Nat)) : Nat :=
  ((m.filter (fun e => e.1 == r)).map (fun e => e.2)).sum

/-- Total of the association list. -/
def sumSnd (m : List (String × Nat)) : Nat := (m.map (fun e => e.2)).sum

/-- A system/user message pair as sent to `model.invoke`. -/
structure PromptPair where
  system : String
  user : String
deriving DecidableEq, Repr

/-- The numbered peer-note lines:
`similarPatients.map((p, i) => ` then backtick `${i + 1}. ${p.Diagnoses_Note}` backtick `)`. -/
def numberedNotes (peers : List Patient) : List String :=
  peers.enum.map (fun pi => natStr (pi.1 + 1) ++ ". " ++ pi.2.Diagnoses_Note)

/-- `builtPrompt` of `src/src/App.tsx` lines 100-101: the template, a
space, the disease type, a colon, a literal newline, then the numbered
notes joined with newlines. -/
def buildPatientPrompt (tmpl cat : String) (peers : List Patient) : String :=
  tmpl ++ " " ++ cat ++ ":\n" ++ String.intercalate "\n" (numberedNotes peers)

/-- `statsPrompt` of `src/src/App.tsx` lines 109-110. -/
def buildStatsPrompt (popUserPrompt : String) (dist : List AgeGroup) : String :=
  popUserPrompt ++ "\n" ++
    String.intercalate "\n" (dist.map (fun g => g.range ++ ": " ++ natStr g.count))

/-- The component state of `src/src/App.tsx` (lines 36-51), minus the
immutable default-prompt constants. -/
structure AppState where
  patients : List Patient
  selectedPatient : String
  summary : String
  populationSummary : String
  similarPatients : List Patient
  ageDistribution : List AgeGroup
  systemPrompt : String
  userPromptTemplate : String
  userPrompt : String
  popSystemPrompt : String
  popUserPrompt : String
deriving DecidableEq, Repr

def defaultSystemPrompt : String :=
  "You are a clinical reasoning assistant. First, summarize the patient diagnosis in ~25 words. Then, give three reasonable guesses for the recovery time."

def defaultUserPromptTemplate : String :=
  "Summarize the common patterns across these patients with"

def defaultPopSystemPrompt : String := "Summarize key population trend concisely."

def defaultPopUserPrompt : String :=
  "You are a medical data analyst. Summarize in around 20 words the most significant trend across the following age group distribution:"

/-- The fixed error text of `src/src/App.tsx` line 118. -/
def errText : String := "Error generating summary. Please check your API key."

/-- The selection effect of `src/src/App.tsx` lines 62-86.  The second
component is the list of summarizer calls the effect performs: this
effect only filters and bins, so it is empty on every path.  Note the
guard `if (!selectedPatient) return` leaves all derived state untouched
on deselection. -/
def selectionEffect (s : AppState) : AppState × List PromptPair :=
  if s.selectedPatient == "" then (s, [])
  else
    match findPatient s.patients s.selectedPatient with
    | none => (s, [])
    | some patient =>
      ({ s with
          similarPatients := similarOf s.patients s.selectedPatient patient,
          ageDistribution := distributionOf (diseaseOf s.patients patient) }, [])

/-- `generateSummary` of `src/src/App.tsx` lines 88-121.  `oracle`
models `model.invoke` (`none` = the call throws), `apiKey` models
`import.meta.env.VITE_OPENAI_API_KEY`.  A single `try`/`catch` wraps
both calls; the `catch` sets `summary` to `errText` and
`populationSummary` to the empty string.  The returned list is the
sequence of summarizer calls issued. -/
def generateSummary (oracle : PromptPair → Option String) (apiKey : Option String)
    (s : AppState) : AppState × List PromptPair :=
  match findPatient s.patients s.selectedPatient with
  | none => (s, [])
  | some patient =>
    match apiKey with
    | none => ({ s with summary := errText, populationSummary := "" }, [])
    | some _ =>
      let builtPrompt :=
        buildPatientPrompt s.userPromptTemplate patient.Heart_Disease_Type s.similarPatients
      let s1 := { s with userPrompt := builtPrompt }
      let call1 : PromptPair := ⟨s.systemPrompt, builtPrompt⟩
      match oracle call1 with
      | none => ({ s1 with summary := errText, populationSummary := "" }, [call1])
      | some t1 =>
        let call2 : PromptPair :=
          ⟨s.popSystemPrompt, buildStatsPrompt s.popUserPrompt s.ageDistribution⟩
        match oracle call2 with
        | none => ({ s1 with summary := errText, populationSummary := "" }, [call1, call2])
        | some t2 =>
          ({ s1 with summary := t1, populationSummary := t2 }, [call1, call2])

/-- `restoreDefaultPrompts` of `src/src/App.tsx` lines 145-150. -/
def restoreDefaultPrompts (s : AppState) : AppState :=
  { s with
      systemPrompt := defaultSystemPrompt,
      userPromptTemplate := defaultUserPromptTemplate,
      popSystemPrompt := defaultPopSystemPrompt,
      popUserPrompt := defaultPopUserPrompt }

/-- Component state of the legacy variant `src/unnamed/part_000`
(lines 32-36). -/
structure LegacyState where
  patients : List Patient
  selectedPatient : String
  summary : String
  similarPatients : List Patient
  ageDistribution : List AgeGroup
deriving DecidableEq, Repr

/-- The fixed error text of `src/unnamed/part_000` line 126. -/
def legacyErrText : String :=
  "Error generating summary. Please ensure you have set up your OpenAI API key correctly in the .env file."

/-- The hard-coded system message of `src/unnamed/part_000` line 111. -/
def legacySystemPrompt : String :=
  "You are a clinical reasoning assistant. First, summarize the patient diagnosis in ~25 words, you don't need to include everything, just show reasoning. Then, based on medical knowledge, give three reasonable guesses for the recovery time (in days or weeks), each with a one-sentence explanation. If multiple possibilities exist, explain the variation."

/-- The user message of `src/unnamed/part_000` lines 115-118: note the
two newlines after the colon, and that it reads the `similarPatients`
state captured by the closure, i.e. the value from before this effect
ran. -/
def legacyUserPrompt (cat : String) (stalePeers : List Patient) : String :=
  "Summarize the common patterns across these patients with " ++ cat ++ ":\n\n" ++
    String.intercalate "\n" (numberedNotes stalePeers)

/-- The comparator of `src/unnamed/part_000` lines 81-85:
`parseInt(range.split("-")[0])`, i.e. `parseInt` of the prefix before
the first dash.  Same `NaN`-handling convention as `distRel`. -/
def legacyDistRel (a b : AgeGroup) : Prop :=
  optLe (jsParseIntChars (a.range.data.takeWhile (fun c => !(c == '-'))))
    (jsParseIntChars (b.range.data.takeWhile (fun c => !(c == '-')))) = true

instance : DecidableRel legacyDistRel := fun _ _ => instDecidableEqBool _ true

/-- The selection effect of `src/unnamed/part_000` lines 49-132.  On
deselection it clears the age distribution (but not the similar list);
on a valid selection it recomputes both derived values and then runs
`summarizeNote`, invoking the summarizer — summarization is automatic
here.  The second component lists the calls made. -/
def selectionEffectLegacy (oracle : PromptPair → Option String) (apiKey : Option String)
    (s : LegacyState) : LegacyState × List PromptPair :=
  if s.selectedPatient == "" then ({ s with ageDistribution := [] }, [])
  else
    match findPatient s.patients s.selectedPatient with
    | none => (s, [])
    | some patient =>
      let s1 := { s with
        similarPatients := similarOf s.patients s.selectedPatient patient,
        ageDistribution :=
          List.insertionSort legacyDistRel
            ((ageGroupsOf (diseaseOf s.patients patient)).map
              (fun (e : String × Nat) => ({ range := e.1, count := e.2 } : AgeGroup))) }
      match apiKey with
      | none => ({ s1 with summary := legacyErrText }, [])
      | some _ =>
        let call : PromptPair :=
          ⟨legacySystemPrompt, legacyUserPrompt patient.Heart_Disease_Type s.similarPatients⟩
        match oracle call with
        | none => ({ s1 with summary := legacyErrText }, [call])
        | some t => ({ s1 with summary := t }, [call])

/-! ### Decimal printing round-trips through `parseInt` -/

lemma decDigitChar_val : ∀ d : Nat, d < 10 →
    isDecDigit (decDigitChar d) = true ∧ digitVal (decDigitChar d) = d := by decide

lemma decDigitChar_ne_zero : ∀ d : Nat, d < 10 → d ≠ 0 → decDigitChar d ≠ '0' := by decide

lemma natDigitsAux_ne_nil : ∀ fuel n, n < fuel → natDigitsAux fuel n ≠ [] := by
  intro fuel
  induction fuel with
  | zero => intro n h; omega
  | succ f _ =>
    intro n _
    by_cases h10 : n < 10
    · simp [natDigitsAux, h10]
    · simp [natDigitsAux, h10]

lemma natDigitsAux_digits : ∀ fuel n, n < fuel →
    ∀ c ∈ natDigitsAux fuel n, isDecDigit c = true := by
  intro fuel
  induction fuel with
  | zero => intro n h; omega
  | succ f ih =>
    intro n hn c hc
    by_cases h10 : n < 10
    · simp only [natDigitsAux, if_pos h10, List.mem_singleton] at hc
      exact hc ▸ (decDigitChar_val n h10).1
    · simp only [natDigitsAux, if_neg h10, List.mem_append, List.mem_singleton] at hc
      rcases hc with hc | hc
      · have hdiv : n / 10 < f := by
          have := Nat.div_lt_self (by omega : 0 < n) (by omega : 1 < 10)
          omega
        exact ih (n / 10) hdiv c hc
      · exact hc ▸ (decDigitChar_val (n % 10) (Nat.mod_lt n (by omega))).1

lemma digitsToNat_append_single (b : Nat) (l : List Char) (c : Char) :
    digitsToNat b (l ++ [c]) = digitsToNat b l * b + digitVal c := by
  simp [digitsToNat, List.foldl_append]

lemma digitsToNat_natDigitsAux : ∀ fuel n, n < fuel →
    digitsToNat 10 (natDigitsAux fuel n) = n := by
  intro fuel
  induction fuel with
  | zero => intro n h; omega
  | succ f ih =>
    intro n hn
    by_cases h10 : n < 10
    · simp only [natDigitsAux, if_pos h10]
      have := (decDigitChar_val n h10).2
      simp [digitsToNat, this]
    · simp only [natDigitsAux, if_neg h10]
      rw [digitsToNat_append_single]
      have hdiv : n / 10 < f := by
        have := Nat.div_lt_self (by omega : 0 < n) (by omega : 1 < 10)
        omega
      rw [ih (n / 10) hdiv]
      have := (decDigitChar_val (n % 10) (Nat.mod_lt n (by omega))).2
      omega

lemma natDigits_ne_nil (n : Nat) : natDigits n ≠ [] :=
  natDigitsAux_ne_nil (n + 1) n (by omega)

lemma natDigits_digits (n : Nat) : ∀ c ∈ natDigits n, isDecDigit c = true :=
  natDigitsAux_digits (n + 1) n (by omega)

lemma digitsToNat_natDigits (n : Nat) : digitsToNat 10 (natDigits n) = n :=
  digitsToNat_natDigitsAux (n + 1) n (by omega)

lemma takeWhile_append_all {α : Type} (p : α → Bool) (l r : List α)
    (h : ∀ c ∈ l, p c = true) : (l ++ r).takeWhile p = l ++ r.takeWhile p := by
  induction l with
  | nil => simp
  | cons c cs ih =>
    have hc : p c = true := h c (List.mem_cons_self c cs)
    simp only [List.cons_append, List.takeWhile_cons, hc, if_true]
    rw [ih (fun x hx => h x (List.mem_cons_of_mem c hx))]

lemma digit_not_dash {c : Char} (h : isDecDigit c = true) : (c == '-') = false := by
  simp only [isDecDigit, Bool.and_eq_true, decide_eq_true_eq] at h
  have : c ≠ '-' := by
    intro he
    rw [he] at h
    simp at h
  simpa using this

lemma digit_not_space {c : Char} (h : isDecDigit c = true) : isJsSpace c = false := by
  simp only [isDecDigit, Bool.and_eq_true, decide_eq_true_eq] at h
  simp only [isJsSpace]
  simp only [Bool.or_eq_false_iff, beq_eq_false_iff_ne, ne_eq, Bool.and_eq_false_iff,
    decide_eq_false_iff_not]
  omega

lemma isDecDigit_dash : isDecDigit '-' = false := by decide

lemma decParse_digits_dash (l t : List Char) (hne : l ≠ [])
    (hdig : ∀ c ∈ l, isDecDigit c = true) :
    decParse (l ++ '-' :: t) = some (digitsToNat 10 l) := by
  unfold decParse
  rw [takeWhile_append_all isDecDigit l ('-' :: t) hdig]
  simp only [List.takeWhile_cons, isDecDigit_dash]
  simp [List.isEmpty_iff, hne]

lemma jsParseNonneg_natDigits (n : Nat) (t : List Char) :
    jsParseNonneg (natDigits n ++ '-' :: t) = some n := by
  have hdec : decParse (natDigits n ++ '-' :: t) = some (digitsToNat 10 (natDigits n)) :=
    decParse_digits_dash _ t (natDigits_ne_nil n) (natDigits_digits n)
  rw [digitsToNat_natDigits] at hdec
  obtain ⟨c, cs, heq⟩ := List.exists_cons_of_ne_nil (natDigits_ne_nil n)
  have hcdig : isDecDigit c = true := by
    refine natDigits_digits n c (by rw [heq]; exact List.mem_cons_self c cs)
  cases cs with
  | nil =>
    rw [heq] at hdec ⊢
    simp only [List.cons_append, List.nil_append]
    show (if c == '0' && ('-' == 'x' || '-' == 'X') then hexParse t else decParse _) = some n
    simp only [show ('-' == 'x') = false from by decide,
      show ('-' == 'X') = false from by decide, Bool.or_self, Bool.and_false, if_false]
    exact hdec
  | cons c1 cs1 =>
    rw [heq] at hdec ⊢
    have hc1dig : isDecDigit c1 = true := by
      refine natDigits_digits n c1 ?_
      rw [heq]
      exact List.mem_cons_of_mem c (List.mem_cons_self c1 cs1)
    have hx : (c1 == 'x') = false := by
      simp only [isDecDigit, Bool.and_eq_true, decide_eq_true_eq] at hc1dig
      have : c1 ≠ 'x' := by intro he; rw [he] at hc1dig; simp at hc1dig
      simpa using this
    have hX : (c1 == 'X') = false := by
      simp only [isDecDigit, Bool.and_eq_true, decide_eq_true_eq] at hc1dig
      have : c1 ≠ 'X' := by intro he; rw [he] at hc1dig; simp at hc1dig
      simpa using this
    simp only [List.cons_append]
    show (if c == '0' && (c1 == 'x' || c1 == 'X') then _ else decParse _) = some n
    simp only [hx, hX, Bool.or_self, Bool.and_false, if_false]
    simpa using hdec

lemma jsParseIntChars_intDigits (g : Int) (t : List Char) :
    jsParseIntChars (intDigits g ++ '-' :: t) = some g := by
  by_cases hg : g < 0
  · have hrep : intDigits g = '-' :: natDigits (-g).toNat := by
      simp [intDigits, hg]
    rw [hrep]
    simp only [List.cons_append]
    unfold jsParseIntChars
    rw [List.dropWhile_cons_of_neg (by simp [show isJsSpace '-' = false from by decide])]
    simp only [show ('-' == '-') = true from by decide, if_true]
    rw [jsParseNonneg_natDigits]
    simp only [Option.map_some', Int.ofNat_eq_natCast]
    have h1 : ((-g).toNat : Int) = -g := Int.toNat_of_nonneg (by omega)
    rw [h1]
    simp
  · have hrep : intDigits g = natDigits g.toNat := by
      simp [intDigits, hg]
    rw [hrep]
    obtain ⟨c, cs, heq⟩ := List.exists_cons_of_ne_nil (natDigits_ne_nil g.toNat)
    have hcdig : isDecDigit c = true := by
      refine natDigits_digits g.toNat c (by rw [heq]; exact List.mem_cons_self c cs)
    rw [heq]
    simp only [List.cons_append]
    unfold jsParseIntChars
    rw [List.dropWhile_cons_of_neg (by simp [digit_not_space hcdig])]
    have hdash : (c == '-') = false := digit_not_dash hcdig
    have hplus : (c == '+') = false := by
      simp only [isDecDigit, Bool.and_eq_true, decide_eq_true_eq] at hcdig
      have : c ≠ '+' := by intro he; rw [he] at hcdig; simp at hcdig
      simpa using this
    simp only [hdash, hplus, Bool.false_eq_true, if_false]
    rw [show c :: (cs ++ '-' :: t) = (c :: cs) ++ '-' :: t from rfl, ← heq,
      jsParseNonneg_natDigits]
    simp only [Option.map_some', Int.ofNat_eq_natCast]
    rw [Int.toNat_of_nonneg (by omega)]

lemma data_mk (l : List Char) : (String.mk l).data = l := rfl

lemma jsParseInt_binKey {p : Patient} {a : Int} (h : jsParseInt p.Age = some a) :
    jsParseInt (binKey p) = some (5 * (a.fdiv 5)) := by
  unfold binKey
  rw [h]
  simp only [jsParseInt, data_mk]
  exact jsParseIntChars_intDigits _ _

lemma jsParseInt_nan : jsParseInt ("NaN-NaN") = none := by decide

lemma binKey_nan {p : Patient} (h : jsParseInt p.Age = none) : binKey p = "NaN-NaN" := by
  unfold binKey
  rw [h]

lemma binKey_ne_nan {p : Patient} {a : Int} (h : jsParseInt p.Age = some a) :
    binKey p ≠ "NaN-NaN" := by
  intro he
  have := jsParseInt_binKey h
  rw [he, jsParseInt_nan] at this
  exact Option.noConfusion this

/-! ### The counter object and the derived distribution -/

lemma bumpKey_cons_eq (k' k : String) (c : Nat) (rest : List (String × Nat)) (h : k' = k) :
    bumpKey ((k', c) :: rest) k = (k', c + 1) :: rest := by
  simp [bumpKey, h]

lemma bumpKey_cons_ne (k' k : String) (c : Nat) (rest : List (String × Nat)) (h : ¬k' = k) :
    bumpKey ((k', c) :: rest) k = (k', c) :: bumpKey rest k := by
  simp [bumpKey, h]

lemma sumSnd_nil : sumSnd [] = 0 := rfl

lemma sumSnd_cons (e : String × Nat) (m : List (String × Nat)) :
    sumSnd (e :: m) = e.2 + sumSnd m := by
  simp [sumSnd]

lemma countKey_nil (r : String) : countKey r [] = 0 := rfl

lemma countKey_cons (r k' : String) (c : Nat) (m : List (String × Nat)) :
    countKey r ((k', c) :: m) = (if k' = r then c else 0) + countKey r m := by
  by_cases h : k' = r
  · simp [countKey, List.filter_cons, h]
  · simp [countKey, List.filter_cons, h]

lemma sumSnd_bumpKey (m : List (String × Nat)) (k : String) :
    sumSnd (bumpKey m k) = sumSnd m + 1 := by
  induction m with
  | nil => simp [bumpKey, sumSnd]
  | cons e rest ih =>
    obtain ⟨k', c⟩ := e
    by_cases h : k' = k
    · rw [bumpKey_cons_eq k' k c rest h, sumSnd_cons, sumSnd_cons]
      omega
    · rw [bumpKey_cons_ne k' k c rest h, sumSnd_cons, sumSnd_cons, ih]
      omega

lemma countKey_bumpKey (m : List (String × Nat)) (k r : String) :
    countKey r (bumpKey m k) = countKey r m + (if k = r then 1 else 0) := by
  induction m with
  | nil =>
    by_cases h : k = r <;> simp [bumpKey, countKey_cons, countKey_nil, h]
  | cons e rest ih =>
    obtain ⟨k', c⟩ := e
    by_cases h : k' = k
    · rw [bumpKey_cons_eq k' k c rest h, countKey_cons, countKey_cons]
      subst h
      by_cases hr : k' = r
      · rw [if_pos hr, if_pos hr, if_pos hr]
        omega
      · rw [if_neg hr, if_neg hr, if_neg hr]
        omega
    · rw [bumpKey_cons_ne k' k c rest h, countKey_cons, countKey_cons, ih]
      omega

lemma sumSnd_foldl_bump (ps : List Patient) :
    ∀ m, sumSnd (ps.foldl (fun m p => bumpKey m (binKey p)) m) = sumSnd m + ps.length := by
  induction ps with
  | nil => intro m; simp
  | cons p rest ih =>
    intro m
    simp only [List.foldl_cons, List.length_cons]
    rw [ih, sumSnd_bumpKey]
    omega

lemma countKey_foldl_bump (r : String) (ps : List Patient) :
    ∀ m, countKey r (ps.foldl (fun m p => bumpKey m (binKey p)) m) =
      countKey r m + ps.countP (fun p => binKey p == r) := by
  induction ps with
  | nil => intro m; simp
  | cons p rest ih =>
    intro m
    simp only [List.foldl_cons, List.countP_cons]
    rw [ih, countKey_bumpKey]
    by_cases h : binKey p = r
    · have hb : (binKey p == r) = true := by simpa using h
      rw [if_pos h, if_pos hb]
      omega
    · have hb : (binKey p == r) = false := by simpa using h
      rw [if_neg h, if_neg (by simp [hb] : ¬(binKey p == r) = true)]
      omega

lemma sumSnd_ageGroupsOf (ds : List Patient) : sumSnd (ageGroupsOf ds) = ds.length := by
  unfold ageGroupsOf
  rw [sumSnd_foldl_bump]
  simp [sumSnd]

lemma countKey_ageGroupsOf (ds : List Patient) (r : String) :
    countKey r (ageGroupsOf ds) = ds.countP (fun p => binKey p == r) := by
  unfold ageGroupsOf
  rw [countKey_foldl_bump]
  simp [countKey]

lemma keys_bumpKey (m : List (String × Nat)) (k : String) :
    (bumpKey m k).map Prod.fst =
      if k ∈ m.map Prod.fst then m.map Prod.fst else m.map Prod.fst ++ [k] := by
  induction m with
  | nil => simp [bumpKey]
  | cons e rest ih =>
    obtain ⟨k', c⟩ := e
    by_cases h : k' = k
    · rw [bumpKey_cons_eq k' k c rest h]
      subst h
      simp
    · rw [bumpKey_cons_ne k' k c rest h]
      simp only [List.map_cons, List.mem_cons]
      rw [ih]
      by_cases hm : k ∈ rest.map Prod.fst
      · rw [if_pos hm, if_pos (Or.inr hm)]
      · rw [if_neg hm, if_neg ?_]
        · simp
        · rintro (he | he)
          · exact h he.symm
          · exact hm he

lemma nodup_keys_bumpKey (m : List (String × Nat)) (k : String)
    (h : (m.map Prod.fst).Nodup) : ((bumpKey m k).map Prod.fst).Nodup := by
  rw [keys_bumpKey]
  by_cases hm : k ∈ m.map Prod.fst
  · rw [if_pos hm]
    exact h
  · rw [if_neg hm]
    simp [List.nodup_append, h, hm]

lemma nodup_keys_foldl_bump (ps : List Patient) :
    ∀ m, (m.map Prod.fst).Nodup →
      ((ps.foldl (fun m p => bumpKey m (binKey p)) m).map Prod.fst).Nodup := by
  induction ps with
  | nil => intro m h; simpa using h
  | cons p rest ih =>
    intro m h
    simp only [List.foldl_cons]
    exact ih _ (nodup_keys_bumpKey m (binKey p) h)

lemma nodup_keys_ageGroupsOf (ds : List Patient) :
    ((ageGroupsOf ds).map Prod.fst).Nodup :=
  nodup_keys_foldl_bump ds [] (by simp)

lemma counts_pos_bumpKey (m : List (String × Nat)) (k : String)
    (h : ∀ e ∈ m, 1 ≤ e.2) : ∀ e ∈ bumpKey m k, 1 ≤ e.2 := by
  induction m with
  | nil =>
    intro e he
    simp only [bumpKey, List.mem_singleton] at he
    simp [he]
  | cons e0 rest ih =>
    obtain ⟨k', c⟩ := e0
    intro e he
    by_cases hk : k' = k
    · rw [bumpKey_cons_eq k' k c rest hk] at he
      rcases List.mem_cons.mp he with he | he
      · simp [he]
      · exact h e (List.mem_cons_of_mem _ he)
    · rw [bumpKey_cons_ne k' k c rest hk] at he
      rcases List.mem_cons.mp he with he | he
      · exact he ▸ h (k', c) (List.mem_cons_self _ _)
      · exact ih (fun x hx => h x (List.mem_cons_of_mem _ hx)) e he

lemma counts_pos_foldl_bump (ps : List Patient) :
    ∀ m, (∀ e ∈ m, 1 ≤ e.2) →
      ∀ e ∈ ps.foldl (fun m p => bumpKey m (binKey p)) m, 1 ≤ e.2 := by
  induction ps with
  | nil => intro m h; simpa using h
  | cons p rest ih =>
    intro m h
    simp only [List.foldl_cons]
    exact ih _ (counts_pos_bumpKey m (binKey p) h)

lemma counts_pos_ageGroupsOf (ds : List Patient) : ∀ e ∈ ageGroupsOf ds, 1 ≤ e.2 :=
  counts_pos_foldl_bump ds [] (by simp)

lemma countKey_eq_zero_of_not_mem (m : List (String × Nat)) (k : String)
    (h : k ∉ m.map Prod.fst) : countKey k m = 0 := by
  induction m with
  | nil => simp [countKey]
  | cons e rest ih =>
    obtain ⟨k', c⟩ := e
    simp only [List.map_cons, List.mem_cons] at h
    push_neg at h
    rw [countKey_cons, if_neg (fun he => h.1 he.symm), ih h.2]

lemma countKey_of_mem_nodup (m : List (String × Nat)) (k : String) (c : Nat)
    (hnd : (m.map Prod.fst).Nodup) (hmem : (k, c) ∈ m) : countKey k m = c := by
  induction m with
  | nil => simp at hmem
  | cons e rest ih =>
    obtain ⟨k', c'⟩ := e
    simp only [List.map_cons, List.nodup_cons] at hnd
    rcases List.mem_cons.mp hmem with he | he
    · have hk : k' = k := (congrArg Prod.fst he).symm
      have hc : c' = c := (congrArg Prod.snd he).symm
      subst hk
      subst hc
      rw [countKey_cons, if_pos rfl, countKey_eq_zero_of_not_mem rest k' hnd.1]
      omega
    · have hk' : k' ≠ k := by
        intro he2
        subst he2
        exact hnd.1 (List.mem_map_of_mem Prod.fst he)
      rw [countKey_cons, if_neg hk', ih hnd.2 he]
      omega

lemma countFor_nil (r : String) : countFor r [] = 0 := rfl

lemma countFor_cons (r : String) (g : AgeGroup) (l : List AgeGroup) :
    countFor r (g :: l) = (if g.range = r then g.count else 0) + countFor r l := by
  by_cases h : g.range = r
  · simp [countFor, List.filter_cons, h]
  · simp [countFor, List.filter_cons, h]

lemma sumCounts_nil : sumCounts [] = 0 := rfl

lemma sumCounts_cons (g : AgeGroup) (l : List AgeGroup) :
    sumCounts (g :: l) = g.count + sumCounts l := by
  simp [sumCounts]

lemma countFor_map_pairs (m : List (String × Nat)) (r : String) :
    countFor r (m.map (fun e => (⟨e.1, e.2⟩ : AgeGroup))) = countKey r m := by
  induction m with
  | nil => rfl
  | cons e rest ih =>
    obtain ⟨k', c⟩ := e
    simp only [List.map_cons]
    rw [countFor_cons, countKey_cons, ih]

lemma sumCounts_map_pairs (m : List (String × Nat)) :
    sumCounts (m.map (fun e => (⟨e.1, e.2⟩ : AgeGroup))) = sumSnd m := by
  induction m with
  | nil => rfl
  | cons e rest ih =>
    obtain ⟨k', c⟩ := e
    simp only [List.map_cons]
    rw [sumCounts_cons, sumSnd_cons, ih]

lemma sumCounts_perm {l l' : List AgeGroup} (h : l.Perm l') : sumCounts l = sumCounts l' := by
  unfold sumCounts
  exact (h.map (fun g => g.count)).sum_eq

lemma countFor_perm (r : String) {l l' : List AgeGroup} (h : l.Perm l') :
    countFor r l = countFor r l' := by
  unfold countFor
  exact ((h.filter (fun g => g.range == r)).map (fun g => g.count)).sum_eq

lemma perm_distributionOf (ds : List Patient) :
    (distributionOf ds).Perm ((ageGroupsOf ds).map (fun e => (⟨e.1, e.2⟩ : AgeGroup))) :=
  List.perm_insertionSort distRel _

lemma countFor_distributionOf (ds : List Patient) (r : String) :
    countFor r (distributionOf ds) = ds.countP (fun p => binKey p == r) := by
  rw [countFor_perm r (perm_distributionOf ds), countFor_map_pairs, countKey_ageGroupsOf]

lemma sumCounts_distributionOf (ds : List Patient) :
    sumCounts (distributionOf ds) = ds.length := by
  rw [sumCounts_perm (perm_distributionOf ds), sumCounts_map_pairs, sumSnd_ageGroupsOf]

lemma mem_distributionOf {ds : List Patient} {g : AgeGroup} (h : g ∈ distributionOf ds) :
    (g.range, g.count) ∈ ageGroupsOf ds := by
  have := (perm_distributionOf ds).mem_iff.mp h
  simp only [List.mem_map] at this
  obtain ⟨e, he, heq⟩ := this
  have h1 : g.range = e.1 := by rw [← heq]
  have h2 : g.count = e.2 := by rw [← heq]
  rw [h1, h2]
  exact he

lemma distributionOf_bin_props (ds : List Patient) :
    ∀ g ∈ distributionOf ds, 1 ≤ g.count ∧
      g.count = ds.countP (fun p => binKey p == g.range) ∧
      ∃ p ∈ ds, binKey p = g.range := by
  intro g hg
  have hmem : (g.range, g.count) ∈ ageGroupsOf ds := mem_distributionOf hg
  have hpos : 1 ≤ g.count := counts_pos_ageGroupsOf ds (g.range, g.count) hmem
  have hcnt : g.count = ds.countP (fun p => binKey p == g.range) := by
    rw [← countKey_ageGroupsOf]
    exact (countKey_of_mem_nodup _ _ _ (nodup_keys_ageGroupsOf ds) hmem).symm
  refine ⟨hpos, hcnt, ?_⟩
  have : 0 < ds.countP (fun p => binKey p == g.range) := by omega
  obtain ⟨p, hp, hbp⟩ := List.countP_pos.mp this
  exact ⟨p, hp, by simpa using hbp⟩

lemma sorted_distributionOf (ds : List Patient) :
    (distributionOf ds).Pairwise distRel :=
  List.sorted_insertionSort distRel _

/-! ### Cohort selection -/

lemma find_focal_mem {patients : List Patient} {sel : String} {focal : Patient}
    (h : findPatient patients sel = some focal) : focal ∈ patients ∧ focal.ID = sel := by
  unfold findPatient at h
  exact ⟨List.mem_of_find?_eq_some h, by simpa using List.find?_some h⟩

lemma filter_id_eq_focal {patients : List Patient} {sel : String} {focal : Patient}
    (hfind : findPatient patients sel = some focal)
    (huniq : (patients.filter (fun p => p.ID == sel)).length = 1) :
    patients.filter (fun p => p.ID == sel) = [focal] := by
  obtain ⟨hfm, hfid⟩ := find_focal_mem hfind
  obtain ⟨a, ha⟩ := List.length_eq_one.mp huniq
  have hff : focal ∈ patients.filter (fun p => p.ID == sel) :=
    List.mem_filter.mpr ⟨hfm, by simpa using hfid⟩
  rw [ha] at hff ⊢
  simp only [List.mem_singleton] at hff
  rw [hff]

lemma unique_id_eq_focal {patients : List Patient} {sel : String} {focal p : Patient}
    (hfind : findPatient patients sel = some focal)
    (huniq : (patients.filter (fun p => p.ID == sel)).length = 1)
    (hp : p ∈ patients) (hid : p.ID = sel) : p = focal := by
  have hpf : p ∈ patients.filter (fun p => p.ID == sel) :=
    List.mem_filter.mpr ⟨hp, by simpa using hid⟩
  rw [filter_id_eq_focal hfind huniq] at hpf
  simpa using hpf

lemma similarOf_eq_erase_focal {patients : List Patient} {sel : String} {focal : Patient}
    (hfind : findPatient patients sel = some focal)
    (huniq : (patients.filter (fun p => p.ID == sel)).length = 1) :
    similarOf patients sel focal =
      (patients.filter
        (fun p => p.Heart_Disease_Type == focal.Heart_Disease_Type)).filter
        (fun p => decide (¬p = focal)) := by
  obtain ⟨_, hfid⟩ := find_focal_mem hfind
  unfold similarOf
  rw [List.filter_filter]
  refine List.filter_congr ?_
  intro p hp
  by_cases he : p = focal
  · subst he
    have : (p.ID != sel) = false := by simp [hfid]
    simp [this]
  · have hid : ¬p.ID = sel := fun h => he (unique_id_eq_focal hfind huniq hp h)
    have h1 : (p.ID != sel) = true := by simpa using hid
    have h2 : decide (¬p = focal) = true := by simpa using he
    rw [h1, h2]

lemma focal_not_mem_similarOf {patients : List Patient} {sel : String} {focal : Patient}
    (hfind : findPatient patients sel = some focal) :
    focal ∉ similarOf patients sel focal := by
  obtain ⟨_, hfid⟩ := find_focal_mem hfind
  intro hm
  unfold similarOf at hm
  have := (List.mem_filter.mp hm).2
  simp only [Bool.and_eq_true, bne_iff_ne, ne_eq] at this
  exact this.1 hfid

lemma similarOf_eq_filter_disease (patients : List Patient) (sel : String) (focal : Patient) :
    similarOf patients sel focal = (diseaseOf patients focal).filter (fun p => p.ID != sel) := by
  unfold similarOf diseaseOf
  rw [List.filter_filter]

lemma disease_length {patients : List Patient} {sel : String} {focal : Patient}
    (hfind : findPatient patients sel = some focal)
    (huniq : (patients.filter (fun p => p.ID == sel)).length = 1) :
    (diseaseOf patients focal).length = 1 + (similarOf patients sel focal).length := by
  obtain ⟨hfm, hfid⟩ := find_focal_mem hfind
  have hsplit := List.length_eq_countP_add_countP (p := fun p => p.ID == sel)
    (l := diseaseOf patients focal)
  have h1 : (diseaseOf patients focal).countP (fun p => p.ID == sel) = 1 := by
    rw [List.countP_eq_length_filter]
    unfold diseaseOf
    rw [List.filter_comm, filter_id_eq_focal hfind huniq]
    simp [List.filter]
  have h2 : (diseaseOf patients focal).countP (fun p => !(p.ID == sel)) =
      (similarOf patients sel focal).length := by
    rw [List.countP_eq_length_filter, similarOf_eq_filter_disease patients sel focal]
    rfl
  have h2' : (diseaseOf patients focal).countP (fun p => ¬(p.ID == sel)) =
      (diseaseOf patients focal).countP (fun p => !(p.ID == sel)) := by
    refine List.countP_congr ?_
    intro x _
    simp
  omega

lemma selectionEffect_selected {s : AppState} {focal : Patient}
    (hne : ¬s.selectedPatient = "")
    (hfind : findPatient s.patients s.selectedPatient = some focal) :
    selectionEffect s =
      ({ s with
          similarPatients := similarOf s.patients s.selectedPatient focal,
          ageDistribution := distributionOf (diseaseOf s.patients focal) }, []) := by
  unfold selectionEffect
  rw [if_neg (by simpa using hne), hfind]

/-! ### Concrete sample data for witnesses and counterexamples -/

def pA : Patient :=
  { ID := "1", Age := "62", Heart_Disease_Type := "A", Diagnoses_Note := "note one" }

def pB : Patient :=
  { ID := "2", Age := "abc", Heart_Disease_Type := "A", Diagnoses_Note := "note two" }

def pC : Patient :=
  { ID := "3", Age := "70", Heart_Disease_Type := "B", Diagnoses_Note := "note three" }

def pD : Patient :=
  { ID := "4", Age := "64", Heart_Disease_Type := "A", Diagnoses_Note := "note four" }

def sampleState : AppState :=
  { patients := [pA, pB, pC, pD], selectedPatient := "1",
    summary := "old patient summary", populationSummary := "old population summary",
    similarPatients := [], ageDistribution := [],
    systemPrompt := "SYS", userPromptTemplate := "Summarize",
    userPrompt := "", popSystemPrompt := "POPSYS", popUserPrompt := "POPUSER" }

/-- A summarizer that always succeeds. -/
def oracleAll : PromptPair → Option String := fun _ => some "generated text"

/-- A summarizer for which the patient-level call (system text `SYS`)
succeeds and the population-level call (system text `POPSYS`) fails. -/
def oraclePopFail : PromptPair → Option String :=
  fun pp => if pp.system == "POPSYS" then none else some "patient text ok"

/-- A summarizer that always fails. -/
def oracleNone : PromptPair → Option String := fun _ => none

/-! ### Claims -/

/-- C9: when no patient record matches the current selection,
`generateSummary` returns before the `try` block: no summarizer call is
issued and the whole state — in particular `summary`,
`populationSummary` and `userPrompt` — is unchanged. -/
theorem c9_generate_guard_noop (oracle : PromptPair → Option String)
    (apiKey : Option String) (s : AppState)
    (hfind : findPatient s.patients s.selectedPatient = none) :
    generateSummary oracle apiKey s = (s, []) := by
  unfold generateSummary
  rw [hfind]

theorem c9_generate_guard_noop_witness :
    findPatient ({ sampleState with selectedPatient := "" }).patients
        ({ sampleState with selectedPatient := "" }).selectedPatient = none ∧
      generateSummary oracleAll (some ("key")) { sampleState with selectedPatient := "" } =
        ({ sampleState with selectedPatient := "" }, []) :=
  ⟨by decide,
   c9_generate_guard_noop oracleAll (some ("key")) { sampleState with selectedPatient := "" }
     (by decide)⟩

/-- C10: `restoreDefaultPrompts` sets exactly the four template fields
to the built-in defaults and leaves the selection, the peers list, the
age histogram, both summary texts and the stored sent prompt
unchanged. -/
theorem c10_restore_defaults_frame (s : AppState) :
    (restoreDefaultPrompts s).systemPrompt = defaultSystemPrompt ∧
    (restoreDefaultPrompts s).userPromptTemplate = defaultUserPromptTemplate ∧
    (restoreDefaultPrompts s).popSystemPrompt = defaultPopSystemPrompt ∧
    (restoreDefaultPrompts s).popUserPrompt = defaultPopUserPrompt ∧
    (restoreDefaultPrompts s).patients = s.patients ∧
    (restoreDefaultPrompts s).selectedPatient = s.selectedPatient ∧
    (restoreDefaultPrompts s).similarPatients = s.similarPatients ∧
    (restoreDefaultPrompts s).ageDistribution = s.ageDistribution ∧
    (restoreDefaultPrompts s).summary = s.summary ∧
    (restoreDefaultPrompts s).populationSummary = s.populationSummary ∧
    (restoreDefaultPrompts s).userPrompt = s.userPrompt :=
  ⟨rfl, rfl, rfl, rfl, rfl, rfl, rfl, rfl, rfl, rfl, rfl⟩

/-- C3 counterexample: with the credential absent, the code sets the
patient summary to the fixed error string but sets the population
summary to the empty string, not to the error string as the claim
states. -/
theorem c3_counterexample :
    (generateSummary oracleAll none sampleState).1.summary = errText ∧
    (generateSummary oracleAll none sampleState).1.populationSummary = "" ∧
    ¬("" = errText) := by decide

/-- C3 (amended): with the credential absent, `generateSummary` catches
the thrown error without issuing any summarizer call: the patient
summary text becomes the fixed error string, the population summary
text becomes the empty string, everything else is unchanged, and no
fault propagates to the caller (the handler returns a state). -/
theorem c3_no_credential (s : AppState) (focal : Patient)
    (oracle : PromptPair → Option String)
    (hfind : findPatient s.patients s.selectedPatient = some focal) :
    generateSummary oracle none s =
      ({ s with summary := errText, populationSummary := "" }, []) := by
  unfold generateSummary
  rw [hfind]

theorem c3_no_credential_witness :
    findPatient sampleState.patients sampleState.selectedPatient = some pA ∧
      generateSummary oracleAll none sampleState =
        ({ sampleState with summary := errText, populationSummary := "" }, []) :=
  ⟨by decide, c3_no_credential sampleState pA oracleAll (by decide)⟩

/-- The state right after deselection: a prior selection left peers and
histogram filled, then `selectPatient("")` set the selection empty. -/
def deselectedState : AppState :=
  { sampleState with
      selectedPatient := "",
      similarPatients := [pB, pD],
      ageDistribution := [⟨"60-64", 2⟩] }

/-- The corresponding legacy-variant state after deselection. -/
def deselectedLegacyState : LegacyState :=
  { patients := [pA, pB], selectedPatient := "", summary := "old",
    similarPatients := [pB], ageDistribution := [⟨"60-64", 1⟩] }

/-- C4 counterexample: after a prior selection filled the peers list and
the histogram, `selectPatient("")` triggers the effect with an empty
selection; the `App.tsx` effect returns early without clearing anything,
so the cohort and the AgeBin sequence do not become empty as the claim
states. -/
theorem c4_counterexample :
    ¬((selectionEffect deselectedState).1.similarPatients = []) ∧
    ¬((selectionEffect deselectedState).1.ageDistribution = []) := by decide

/-- C4 (amended): on `selectPatient("")` the `App.tsx` selection effect
is a complete no-op — the stale peers list and AgeBin sequence are
retained, not cleared; the legacy `part_000` effect clears only the
AgeBin sequence and also retains the peers list.  Neither variant
issues a summarizer call on deselection. -/
theorem c4_deselect_retains_state (s : AppState) (sl : LegacyState)
    (oracle : PromptPair → Option String) (apiKey : Option String)
    (hs : s.selectedPatient = "") (hl : sl.selectedPatient = "") :
    selectionEffect s = (s, []) ∧
    selectionEffectLegacy oracle apiKey sl = ({ sl with ageDistribution := [] }, []) := by
  constructor
  · unfold selectionEffect
    rw [if_pos (by simp [hs])]
  · unfold selectionEffectLegacy
    rw [if_pos (by simp [hl])]

theorem c4_deselect_retains_state_witness :
    deselectedState.selectedPatient = "" ∧
    deselectedLegacyState.selectedPatient = "" ∧
    (selectionEffect deselectedState = (deselectedState, []) ∧
     selectionEffectLegacy oracleAll (some ("key")) deselectedLegacyState =
       ({ deselectedLegacyState with ageDistribution := [] }, [])) :=
  ⟨rfl, rfl, c4_deselect_retains_state deselectedState deselectedLegacyState
    oracleAll (some ("key")) rfl rfl⟩

/-- The legacy-variant state at the moment patient `1` is selected. -/
def legacySelState : LegacyState :=
  { patients := [pA, pB, pC, pD], selectedPatient := "1", summary := "old summary",
    similarPatients := [], ageDistribution := [] }

set_option maxRecDepth 4096 in
/-- C5 counterexample: in the legacy `part_000` variant the selection
effect itself invokes the summarizer (`summarizeNote` runs inside the
effect): selecting patient `1` issues one summarization call and
overwrites the stored summary text, refuting the claim that no
summarization call is issued on a selection change. -/
theorem c5_counterexample :
    (selectionEffectLegacy oracleAll (some ("key")) legacySelState).2 =
      [⟨legacySystemPrompt, legacyUserPrompt ("A") []⟩] ∧
    (selectionEffectLegacy oracleAll (some ("key")) legacySelState).1.summary =
      "generated text" ∧
    ¬("generated text" = "old summary") := by decide

/-- C5 (amended): in the `App.tsx` implementation the claim holds — a
selection change recomputes the peers list and the AgeBin sequence,
issues no summarizer call, and leaves both stored summary texts and the
stored sent prompt unchanged; the legacy `part_000` variant instead
invokes summarization automatically inside the selection effect. -/
theorem c5_selection_recomputes_without_summarization (s : AppState) (focal : Patient)
    (hne : ¬s.selectedPatient = "")
    (hfind : findPatient s.patients s.selectedPatient = some focal) :
    (selectionEffect s).2 = [] ∧
    (selectionEffect s).1.summary = s.summary ∧
    (selectionEffect s).1.populationSummary = s.populationSummary ∧
    (selectionEffect s).1.userPrompt = s.userPrompt ∧
    (selectionEffect s).1.similarPatients = similarOf s.patients s.selectedPatient focal ∧
    (selectionEffect s).1.ageDistribution = distributionOf (diseaseOf s.patients focal) := by
  rw [selectionEffect_selected hne hfind]
  exact ⟨rfl, rfl, rfl, rfl, rfl, rfl⟩

theorem c5_selection_recomputes_without_summarization_witness :
    ¬(sampleState.selectedPatient = "") ∧
    findPatient sampleState.patients sampleState.selectedPatient = some pA ∧
    ((selectionEffect sampleState).2 = [] ∧
     (selectionEffect sampleState).1.summary = sampleState.summary ∧
     (selectionEffect sampleState).1.populationSummary = sampleState.populationSummary ∧
     (selectionEffect sampleState).1.userPrompt = sampleState.userPrompt ∧
     (selectionEffect sampleState).1.similarPatients =
       similarOf sampleState.patients sampleState.selectedPatient pA ∧
     (selectionEffect sampleState).1.ageDistribution =
       distributionOf (diseaseOf sampleState.patients pA)) :=
  ⟨by decide, by decide,
   c5_selection_recomputes_without_summarization sampleState pA (by decide) (by decide)⟩

set_option maxRecDepth 4096 in
/-- C2 counterexample: with a summarizer that succeeds on the
patient-level call (system text `SYS`) and fails on the population-level
call (system text `POPSYS`), both calls are issued, the patient call
returns `patient text ok`, yet the final patient summary is the fixed
error string — the single `try`/`catch` around both calls lets the
population failure overwrite the already-successful patient-level text —
and the population summary is set to the empty string, not left
unaffected. -/
theorem c2_counterexample :
    oraclePopFail ⟨sampleState.systemPrompt,
      buildPatientPrompt sampleState.userPromptTemplate ("A") sampleState.similarPatients⟩ =
      some ("patient text ok") ∧
    (generateSummary oraclePopFail (some ("key")) sampleState).2.length = 2 ∧
    (generateSummary oraclePopFail (some ("key")) sampleState).1.summary = errText ∧
    ¬(errText = "patient text ok") ∧
    (generateSummary oraclePopFail (some ("key")) sampleState).1.populationSummary = "" := by
  decide

/-- C2 (amended): there is no failure isolation between the two
summarization calls.  If the patient-level call succeeds and the
population-level call then fails, the shared `catch` overwrites the
successful patient summary with the fixed error string and sets the
population summary to the empty string.  If the patient-level call
fails, the population-level call is never issued and both texts are
likewise set to the error string and the empty string respectively. -/
theorem c2_no_failure_isolation (s : AppState) (focal : Patient) (key : String)
    (oracle : PromptPair → Option String)
    (hfind : findPatient s.patients s.selectedPatient = some focal) :
    (∀ t1, oracle ⟨s.systemPrompt, buildPatientPrompt s.userPromptTemplate
        focal.Heart_Disease_Type s.similarPatients⟩ = some t1 →
      oracle ⟨s.popSystemPrompt, buildStatsPrompt s.popUserPrompt s.ageDistribution⟩ = none →
      (generateSummary oracle (some key) s).1.summary = errText ∧
      (generateSummary oracle (some key) s).1.populationSummary = "" ∧
      (generateSummary oracle (some key) s).2 =
        [⟨s.systemPrompt, buildPatientPrompt s.userPromptTemplate
            focal.Heart_Disease_Type s.similarPatients⟩,
         ⟨s.popSystemPrompt, buildStatsPrompt s.popUserPrompt s.ageDistribution⟩]) ∧
    (oracle ⟨s.systemPrompt, buildPatientPrompt s.userPromptTemplate
        focal.Heart_Disease_Type s.similarPatients⟩ = none →
      (generateSummary oracle (some key) s).1.summary = errText ∧
      (generateSummary oracle (some key) s).1.populationSummary = "" ∧
      (generateSummary oracle (some key) s).2 =
        [⟨s.systemPrompt, buildPatientPrompt s.userPromptTemplate
            focal.Heart_Disease_Type s.similarPatients⟩]) := by
  constructor
  · intro t1 h1 h2
    unfold generateSummary
    rw [hfind]
    simp only [h1, h2]
    refine ⟨?_, ?_, ?_⟩ <;> trivial
  · intro h1
    unfold generateSummary
    rw [hfind]
    simp only [h1]
    refine ⟨?_, ?_, ?_⟩ <;> trivial

set_option maxRecDepth 4096 in
theorem c2_no_failure_isolation_witness :
    findPatient sampleState.patients sampleState.selectedPatient = some pA ∧
    ((∀ t1, oraclePopFail ⟨sampleState.systemPrompt,
        buildPatientPrompt sampleState.userPromptTemplate
          pA.Heart_Disease_Type sampleState.similarPatients⟩ = some t1 →
      oraclePopFail ⟨sampleState.popSystemPrompt,
        buildStatsPrompt sampleState.popUserPrompt sampleState.ageDistribution⟩ = none →
      (generateSummary oraclePopFail (some ("key")) sampleState).1.summary = errText ∧
      (generateSummary oraclePopFail (some ("key")) sampleState).1.populationSummary = "" ∧
      (generateSummary oraclePopFail (some ("key")) sampleState).2 =
        [⟨sampleState.systemPrompt, buildPatientPrompt sampleState.userPromptTemplate
            pA.Heart_Disease_Type sampleState.similarPatients⟩,
         ⟨sampleState.popSystemPrompt,
           buildStatsPrompt sampleState.popUserPrompt sampleState.ageDistribution⟩]) ∧
    (oraclePopFail ⟨sampleState.systemPrompt,
        buildPatientPrompt sampleState.userPromptTemplate
          pA.Heart_Disease_Type sampleState.similarPatients⟩ = none →
      (generateSummary oraclePopFail (some ("key")) sampleState).1.summary = errText ∧
      (generateSummary oraclePopFail (some ("key")) sampleState).1.populationSummary = "" ∧
      (generateSummary oraclePopFail (some ("key")) sampleState).2 =
        [⟨sampleState.systemPrompt, buildPatientPrompt sampleState.userPromptTemplate
            pA.Heart_Disease_Type sampleState.similarPatients⟩])) :=
  ⟨by decide, c2_no_failure_isolation sampleState pA ("key") oraclePopFail (by decide)⟩

/-- C6: with the focal patient found by ID (and, per the data model,
IDs unique in the session), `peers` is exactly the list of records
whose `Heart_Disease_Type` equals the focal record's under exact
case-sensitive string comparison, with the focal record itself removed,
kept in source order (the double filter preserves the source order and
multiplicity); in particular the focal record is never a peer. -/
theorem c6_peers_characterization (patients : List Patient) (sel : String) (focal : Patient)
    (hfind : findPatient patients sel = some focal)
    (huniq : (patients.filter (fun p => p.ID == sel)).length = 1) :
    similarOf patients sel focal =
      (patients.filter (fun p => p.Heart_Disease_Type == focal.Heart_Disease_Type)).filter
        (fun p => decide (¬p = focal)) ∧
    focal ∉ similarOf patients sel focal ∧
    ∀ p, p ∈ similarOf patients sel focal ↔
      (p ∈ patients ∧ p.Heart_Disease_Type = focal.Heart_Disease_Type ∧ ¬p = focal) := by
  refine ⟨similarOf_eq_erase_focal hfind huniq, focal_not_mem_similarOf hfind, ?_⟩
  intro p
  rw [similarOf_eq_erase_focal hfind huniq]
  constructor
  · intro hm
    have h1 := List.mem_filter.mp hm
    have h2 := List.mem_filter.mp h1.1
    refine ⟨h2.1, by simpa using h2.2, by simpa using h1.2⟩
  · rintro ⟨hp, hcat, hne⟩
    exact List.mem_filter.mpr
      ⟨List.mem_filter.mpr ⟨hp, by simpa using hcat⟩, by simpa using hne⟩

theorem c6_peers_characterization_witness :
    findPatient [pA, pB, pC, pD] ("1") = some pA ∧
    (([pA, pB, pC, pD] : List Patient).filter (fun p => p.ID == "1")).length = 1 ∧
    (similarOf [pA, pB, pC, pD] ("1") pA =
      (([pA, pB, pC, pD] : List Patient).filter
        (fun p => p.Heart_Disease_Type == pA.Heart_Disease_Type)).filter
        (fun p => decide (¬p = pA)) ∧
    pA ∉ similarOf [pA, pB, pC, pD] ("1") pA ∧
    ∀ p, p ∈ similarOf [pA, pB, pC, pD] ("1") pA ↔
      (p ∈ ([pA, pB, pC, pD] : List Patient) ∧
        p.Heart_Disease_Type = pA.Heart_Disease_Type ∧ ¬p = pA)) :=
  ⟨by decide, by decide, c6_peers_characterization [pA, pB, pC, pD] ("1") pA
    (by decide) (by decide)⟩

/-- C8: the built patient-level user prompt is exactly the template,
one space, the diagnosis category, a colon, a newline, and then the
1-based numbered list of the peer notes joined by newlines, one peer
per line in cohort order (line `i` is the decimal numeral of `i + 1`, a
dot, a space, and peer `i`'s note); being a pure function of its
inputs, identical inputs give identical text. -/
theorem c8_prompt_format (tmpl cat : String) (peers : List Patient) :
    buildPatientPrompt tmpl cat peers =
      tmpl ++ " " ++ cat ++ ":\n" ++ String.intercalate "\n" (numberedNotes peers) ∧
    (numberedNotes peers).length = peers.length ∧
    ∀ i, (h : i < peers.length) →
      (numberedNotes peers)[i]? =
        some (natStr (i + 1) ++ ". " ++ (peers.get ⟨i, h⟩).Diagnoses_Note) := by
  refine ⟨rfl, by simp [numberedNotes], ?_⟩
  intro i h
  unfold numberedNotes
  rw [List.getElem?_map, show peers.enum = peers.enumFrom 0 from rfl,
    List.getElem?_enumFrom, List.getElem?_eq_getElem h]
  simp

theorem c8_prompt_format_witness :
    1 < ([pB, pD] : List Patient).length ∧
    (numberedNotes [pB, pD])[1]? =
      some (natStr (1 + 1) ++ ". " ++
        (([pB, pD] : List Patient).get ⟨1, by decide⟩).Diagnoses_Note) :=
  ⟨by decide, (c8_prompt_format ("T") ("A") [pB, pD]).2.2 1 (by decide)⟩

/-- A record set in which cohort member `pB` (age text `abc`) has an
unparseable age, with patient `1` selected. -/
def twoPatientState : AppState :=
  { sampleState with
      patients := [pA, pB] }

set_option maxRecDepth 4096 in
/-- C1 counterexample: with cohort member `pB` carrying the age text
`abc`, the member does appear in `peers`, but it is NOT excluded from
the AgeBin counts: `parseInt("abc")` is `NaN`, the bin key becomes the
string `NaN-NaN`, and the member is counted there — the distribution is
`[NaN-NaN: 1, 60-64: 1]`, whose counts sum to 2 although only one
cohort member has a parseable age. -/
theorem c1_counterexample :
    (selectionEffect twoPatientState).1.similarPatients = [pB] ∧
    (selectionEffect twoPatientState).1.ageDistribution =
      [⟨"NaN-NaN", 1⟩, ⟨"60-64", 1⟩] ∧
    countFor ("NaN-NaN") (selectionEffect twoPatientState).1.ageDistribution = 1 ∧
    sumCounts (selectionEffect twoPatientState).1.ageDistribution = 2 ∧
    (diseaseOf twoPatientState.patients pA).countP (fun p => (jsParseInt p.Age).isSome)
      = 1 := by decide

/-- C1 (amended): a cohort member whose age fails to parse still
appears in `peers`, and the histogram derivation neither crashes nor
coerces the age to 0; but instead of being excluded from the histogram
the member is counted under the synthetic `NaN-NaN` bin: that bin's
count is exactly the number of unparseable-age records in the disease
cohort, and every other bin counts only parseable-age records. -/
theorem c1_unparseable_age_in_nan_bin (s : AppState) (focal q : Patient)
    (hne : ¬s.selectedPatient = "")
    (hfind : findPatient s.patients s.selectedPatient = some focal)
    (hq : q ∈ diseaseOf s.patients focal)
    (hqage : jsParseInt q.Age = none)
    (hqid : ¬q.ID = s.selectedPatient) :
    q ∈ (selectionEffect s).1.similarPatients ∧
    countFor ("NaN-NaN") (selectionEffect s).1.ageDistribution =
      (diseaseOf s.patients focal).countP (fun p => (jsParseInt p.Age).isNone) ∧
    1 ≤ countFor ("NaN-NaN") (selectionEffect s).1.ageDistribution ∧
    ∀ r, ¬r = "NaN-NaN" →
      countFor r (selectionEffect s).1.ageDistribution =
        (diseaseOf s.patients focal).countP
          (fun p => (jsParseInt p.Age).isSome && (binKey p == r)) := by
  rw [selectionEffect_selected hne hfind]
  obtain ⟨hqmem, hqpred⟩ := List.mem_filter.mp hq
  refine ⟨?_, ?_, ?_, ?_⟩
  · refine List.mem_filter.mpr ⟨hqmem, ?_⟩
    rw [Bool.and_eq_true]
    exact ⟨by simpa using hqid, hqpred⟩
  · rw [countFor_distributionOf]
    refine List.countP_congr ?_
    intro p _
    constructor
    · intro hb
      rcases hpa : jsParseInt p.Age with _ | a
      · simp
      · exact absurd (by simpa using hb) (binKey_ne_nan hpa)
    · intro hn
      have : jsParseInt p.Age = none := by
        rcases hpa : jsParseInt p.Age with _ | a
        · rfl
        · rw [hpa] at hn
          simp at hn
      simp [binKey_nan this]
  · rw [countFor_distributionOf]
    have : 0 < (diseaseOf s.patients focal).countP (fun p => binKey p == "NaN-NaN") := by
      refine List.countP_pos_iff.mpr ⟨q, hq, ?_⟩
      simp [binKey_nan hqage]
    omega
  · intro r hr
    rw [countFor_distributionOf]
    refine List.countP_congr ?_
    intro p _
    rcases hpa : jsParseInt p.Age with _ | a
    · rw [binKey_nan hpa]
      simp only [Option.isSome_none, Bool.false_and, Bool.false_eq_true, iff_false,
        beq_iff_eq]
      exact fun he => hr he.symm
    · simp

theorem c1_unparseable_age_in_nan_bin_witness :
    ¬(twoPatientState.selectedPatient = "") ∧
    findPatient twoPatientState.patients twoPatientState.selectedPatient = some pA ∧
    pB ∈ diseaseOf twoPatientState.patients pA ∧
    jsParseInt pB.Age = none ∧
    ¬(pB.ID = twoPatientState.selectedPatient) ∧
    (pB ∈ (selectionEffect twoPatientState).1.similarPatients ∧
     countFor ("NaN-NaN") (selectionEffect twoPatientState).1.ageDistribution =
       (diseaseOf twoPatientState.patients pA).countP (fun p => (jsParseInt p.Age).isNone) ∧
     1 ≤ countFor ("NaN-NaN") (selectionEffect twoPatientState).1.ageDistribution ∧
     ∀ r, ¬r = "NaN-NaN" →
       countFor r (selectionEffect twoPatientState).1.ageDistribution =
         (diseaseOf twoPatientState.patients pA).countP
           (fun p => (jsParseInt p.Age).isSome && (binKey p == r))) :=
  ⟨by decide, by decide, by decide, by decide, by decide,
   c1_unparseable_age_in_nan_bin twoPatientState pA pB
     (by decide) (by decide) (by decide) (by decide) (by decide)⟩

set_option maxRecDepth 4096 in
/-- C7 counterexample: in the two-patient cohort with one unparseable
age, the AgeBin counts sum to 2 while only 1 cohort member has a
parseable age — the sum equals the whole cohort size, not the number of
members with a parseable age as the claim states, because the
unparseable member is counted under the `NaN-NaN` bin. -/
theorem c7_counterexample :
    sumCounts (selectionEffect twoPatientState).1.ageDistribution = 2 ∧
    (diseaseOf twoPatientState.patients pA).countP (fun p => (jsParseInt p.Age).isSome)
      = 1 ∧
    ¬((2 : Nat) = 1) := by decide

/-- C7 (amended): for a derived cohort (unique selected ID), the AgeBin
counts sum to the number of cohort members — focal plus peers,
including members whose age does not parse (they are counted under the
`NaN-NaN` bin, see C1); every listed bin is occupied (count at least 1,
equal to the number of cohort records with that bin key); and when
every cohort member's age parses, the bins are exactly the occupied
5-year ranges keyed by `floor(age/5)*5` and the sequence is sorted
ascending by bin start. -/
theorem c7_histogram_invariants (s : AppState) (focal : Patient)
    (hne : ¬s.selectedPatient = "")
    (hfind : findPatient s.patients s.selectedPatient = some focal)
    (huniq : (s.patients.filter (fun p => p.ID == s.selectedPatient)).length = 1) :
    sumCounts (selectionEffect s).1.ageDistribution =
      1 + (selectionEffect s).1.similarPatients.length ∧
    (∀ g ∈ (selectionEffect s).1.ageDistribution,
      1 ≤ g.count ∧
      g.count = (diseaseOf s.patients focal).countP (fun p => binKey p == g.range) ∧
      ∃ p ∈ diseaseOf s.patients focal, binKey p = g.range) ∧
    ((∀ p ∈ diseaseOf s.patients focal, (jsParseInt p.Age).isSome = true) →
      ((selectionEffect s).1.ageDistribution.Pairwise
        (fun a b => ∃ x y, jsParseInt a.range = some x ∧ jsParseInt b.range = some y ∧
          x ≤ y) ∧
      ∀ g ∈ (selectionEffect s).1.ageDistribution,
        ∃ p ∈ diseaseOf s.patients focal, ∃ a, jsParseInt p.Age = some a ∧
          binKey p = g.range ∧ jsParseInt g.range = some (5 * (a.fdiv 5)))) := by
  rw [selectionEffect_selected hne hfind]
  refine ⟨?_, ?_, ?_⟩
  · show sumCounts (distributionOf (diseaseOf s.patients focal)) =
      1 + (similarOf s.patients s.selectedPatient focal).length
    rw [sumCounts_distributionOf, disease_length hfind huniq]
  · intro g hg
    exact distributionOf_bin_props (diseaseOf s.patients focal) g hg
  · intro hparse
    have hkeys : ∀ g ∈ distributionOf (diseaseOf s.patients focal),
        ∃ p ∈ diseaseOf s.patients focal, ∃ a, jsParseInt p.Age = some a ∧
          binKey p = g.range ∧ jsParseInt g.range = some (5 * (a.fdiv 5)) := by
      intro g hg
      obtain ⟨_, _, p, hp, hbp⟩ := distributionOf_bin_props (diseaseOf s.patients focal) g hg
      obtain ⟨a, ha⟩ := Option.isSome_iff_exists.mp (hparse p hp)
      refine ⟨p, hp, a, ha, hbp, ?_⟩
      rw [← hbp]
      exact jsParseInt_binKey ha
    refine ⟨?_, hkeys⟩
    refine (sorted_distributionOf (diseaseOf s.patients focal)).imp_of_mem ?_
    intro a b hma hmb hrel
    obtain ⟨_, _, xa, _, _, hxa⟩ := hkeys a hma
    obtain ⟨_, _, xb, _, _, hxb⟩ := hkeys b hmb
    refine ⟨5 * (xa.fdiv 5), 5 * (xb.fdiv 5), hxa, hxb, ?_⟩
    unfold distRel distLe at hrel
    rw [hxa, hxb] at hrel
    simpa [optLe] using hrel

/-- A record set whose cohort for patient `1` (records `pA` and `pD`,
ages 62 and 64) has only parseable ages. -/
def allParseState : AppState :=
  { sampleState with
      patients := [pA, pD, pC] }

theorem c7_histogram_invariants_witness :
    ¬(allParseState.selectedPatient = "") ∧
    findPatient allParseState.patients allParseState.selectedPatient = some pA ∧
    (allParseState.patients.filter (fun p => p.ID == allParseState.selectedPatient)).length
      = 1 ∧
    (sumCounts (selectionEffect allParseState).1.ageDistribution =
      1 + (selectionEffect allParseState).1.similarPatients.length ∧
    (∀ g ∈ (selectionEffect allParseState).1.ageDistribution,
      1 ≤ g.count ∧
      g.count = (diseaseOf allParseState.patients pA).countP (fun p => binKey p == g.range) ∧
      ∃ p ∈ diseaseOf allParseState.patients pA, binKey p = g.range) ∧
    ((∀ p ∈ diseaseOf allParseState.patients pA, (jsParseInt p.Age).isSome = true) →
      ((selectionEffect allParseState).1.ageDistribution.Pairwise
        (fun a b => ∃ x y, jsParseInt a.range = some x ∧ jsParseInt b.range = some y ∧
          x ≤ y) ∧
      ∀ g ∈ (selectionEffect allParseState).1.ageDistribution,
        ∃ p ∈ diseaseOf allParseState.patients pA, ∃ a, jsParseInt p.Age = some a ∧
          binKey p = g.range ∧ jsParseInt g.range = some (5 * (a.fdiv 5))))) :=
  ⟨by decide, by decide, by decide,
   c7_histogram_invariants allParseState pA (by decide) (by decide) (by decide)⟩
